import Mathlib

/-!
# echoip: scheduler and GeoIP database manager

A shallow embedding of `src/scheduler/scheduler.go` and `src/geoip/geoip.go`.

* Instants (`time.Time`) are integers: nanoseconds since 1970-01-01 00:00:00 UTC
  (a Thursday), read in a `Location` that gives the UTC offset in force at each
  second.  The civil date (year, month, day) of an instant is represented by the
  day number of its wall clock.
* `time.Now()` is an explicit argument of every function that reads the clock.
* Go methods that mutate their receiver and return an `error` become functions
  returning the new state together with an `Option Error`.
-/

namespace EchoIP

/-! ## Time -/

/-! Instants (`time.Time`) and durations (`time.Duration`) are both `Int`, in nanoseconds. -/

/-- Go constant `time.Second`. -/
def Second : Int := 1000000000

/-- Go constant `time.Minute`. -/
def Minute : Int := 60 * Second

/-- Go constant `time.Hour`. -/
def Hour : Int := 60 * Minute

/-- Number of nanoseconds in 24 hours. -/
def nsPerDay : Int := 24 * Hour

/-- A period of a time zone, as `Location.lookup` returns it: the offset in seconds east of UTC,
in force for the Unix seconds `start ≤ sec < stop` (`stop` is the result `end` of Go). -/
structure Zone where
  offset : Int
  start : Int
  stop : Int
  deriving DecidableEq, Repr

/-- A `*time.Location`, by its method `lookup` on Unix seconds.  Every instant the program
reads comes from `time.Now()` and is in the location `time.Local`. -/
structure TimeLocation where
  lookup : Int → Zone

/-- The location `time.UTC`. -/
def UTC : TimeLocation := ⟨fun _ => ⟨0, -(2 ^ 63), 2 ^ 63 - 1⟩⟩

/-- The zone table of Europe/Helsinki from 2023-10-29 to 2024-10-27 (earlier and later instants
are put in the winter period): EET (+2h) until 2024-03-31 01:00 UTC, then EEST (+3h). -/
def Helsinki : TimeLocation :=
  ⟨fun sec =>
    if sec < 1711846800 then ⟨7200, 1698541200, 1711846800⟩
    else if sec < 1729990800 then ⟨10800, 1711846800, 1729990800⟩
    else ⟨7200, 1729990800, 2 ^ 63 - 1⟩⟩

/-- Go method `Time.abs`, in nanoseconds: the wall clock of the instant `t` in `loc`, counted
from 1970-01-01 00:00:00 of that wall clock. -/
def wall (loc : TimeLocation) (t : Int) : Int := t + (loc.lookup (t / Second)).offset * Second

/-- Day number of the civil date of an instant: stands for its `(Year(), Month(), Day())`. -/
def civilDay (loc : TimeLocation) (t : Int) : Int := wall loc t / nsPerDay

/-- Go method `Time.Weekday`: 0 = Sunday, ..., 6 = Saturday (day 0 is a Thursday). -/
def weekday (loc : TimeLocation) (t : Int) : Int := (civilDay loc t + 4) % 7

/-- Go method `Time.Hour`: the hour within the day, 0..23. -/
def hourOf (loc : TimeLocation) (t : Int) : Int := (wall loc t % nsPerDay) / Hour

/-- Go function `time.Date(y, m, d, hour, min, sec, nsec, loc)`, the date `(y, m, d)` given by
its day number: the wall clock is read as if it were UTC, the zone in force then is looked up,
and when the instant so obtained falls outside that zone period the offset in force at that
instant is used instead. -/
def date (loc : TimeLocation) (day hour min sec nsec : Int) : Int :=
  let w := day * nsPerDay + hour * Hour + min * Minute + sec * Second + nsec
  let unix := w / Second
  let z := loc.lookup unix
  let unix :=
    if z.offset ≠ 0 then
      let utc := unix - z.offset
      let offset := if utc < z.start ∨ utc ≥ z.stop then (loc.lookup utc).offset else z.offset
      unix - offset
    else unix
  unix * Second + w % Second

/-- Go method `Time.AddDate(0, 0, days)`: `Date` of the civil date moved by `days` and of the
same clock reading. -/
def addDate (loc : TimeLocation) (t : Int) (days : Int) : Int :=
  let clock := wall loc t % nsPerDay
  date loc (civilDay loc t + days) (clock / Hour) (clock % Hour / Minute)
    (clock % Minute / Second) (clock % Second)

/-- Go method `Time.Add`. -/
def timeAdd (t : Int) (d : Int) : Int := t + d

/-- Go method `Time.After`. -/
def after (t u : Int) : Bool := decide (u < t)

/-! ## Scheduler (`src/scheduler/scheduler.go`) -/

/-- The function `calculateNextRun`, with `time.Now()` passed as `now`, an instant in the
location `loc`. -/
def calculateNextRun (loc : TimeLocation) (schedule : String) (now : Int) : Int :=
  if schedule = "0 3 * * 0" then
    let daysUntilSunday := (7 - weekday loc now) % 7
    let daysUntilSunday :=
      if daysUntilSunday = 0 ∧ hourOf loc now ≥ 3 then 7 else daysUntilSunday
    let nextSunday := addDate loc now daysUntilSunday
    date loc (civilDay loc nextSunday) 3 0 0 0
  else
    timeAdd now (7 * 24 * Hour)

/-- The weekly rule used by `main`: Sunday 03:00. -/
def weeklyRule : String := "0 3 * * 0"

/-- An instant reads Sunday 03:00:00.000000000 on the wall clock of `loc`. -/
def isSunday3 (loc : TimeLocation) (t : Int) : Prop :=
  weekday loc t = 0 ∧ wall loc t % nsPerDay = 3 * Hour

instance (loc : TimeLocation) (t : Int) : Decidable (isSunday3 loc t) := by
  unfold isSunday3
  infer_instance

/-- The UTC offset of `loc` is `off` seconds, less than a day, at every second from two days
before the instant `t` to nine days after it. -/
def stableAround (loc : TimeLocation) (off t : Int) : Prop :=
  -86400 < off ∧ off < 86400 ∧
    ∀ u, t / Second - 172800 ≤ u → u ≤ t / Second + 777600 → (loc.lookup u).offset = off

/-- A Go `error` value, by its message. -/
abbrev Error := String

/-- The struct `Task`.  The work unit `Fn` is the caller's code: what it returns is supplied
to the model when the invocation completes. -/
structure Task where
  Name : String
  Schedule : String
  nextRun : Int
  running : Bool
  deriving DecidableEq, Repr

/-- The struct `Scheduler`, with the goroutines it has created.
`loops` counts live `run` goroutines; `spawned` lists, by task index, the `go s.runTask(task)`
goroutines that have not yet executed `task.running = true`; `active` lists the `runTask`
goroutines that have set `running` and whose deferred function has not yet run, that is the
invocations whose work unit is in progress. -/
structure Scheduler where
  tasks : List Task
  stopClosed : Bool
  wg : Nat
  loops : Nat
  spawned : List Nat
  active : List Nat
  deriving DecidableEq, Repr

/-- The function `New`. -/
def New : Scheduler :=
  { tasks := [], stopClosed := false, wg := 0, loops := 0, spawned := [], active := [] }

/-- The method `AddTask`, called at instant `now`. -/
def AddTask (loc : TimeLocation) (s : Scheduler) (name schedule : String) (now : Int) : Scheduler :=
  let task : Task :=
    { Name := name, Schedule := schedule, nextRun := calculateNextRun loc schedule now,
      running := false }
  { s with tasks := s.tasks ++ [task] }

/-- The loop of `checkTasks` over `s.tasks`: the indices (from `i` on) of the tasks for which
`go s.runTask(task)` is issued. -/
def dueTasks (now : Int) : List Task → Nat → List Nat
  | [], _ => []
  | task :: rest, i =>
    if !task.running && after now task.nextRun then i :: dueTasks now rest (i + 1)
    else dueTasks now rest (i + 1)

/-- The method `checkTasks`. -/
def checkTasks (s : Scheduler) (now : Int) : Scheduler :=
  { s with spawned := s.spawned ++ dueTasks now s.tasks 0 }

/-- First critical section of `runTask`: `task.running = true`. -/
def runTaskBegin (task : Task) : Task := { task with running := true }

/-- The deferred function of `runTask`, run at instant `now`. -/
def runTaskDeferred (loc : TimeLocation) (task : Task) (now : Int) : Task :=
  { task with running := false, nextRun := calculateNextRun loc task.Schedule now }

/-- The rest of `runTask` once `task.Fn()` has returned `err` at instant `now`: the log line and
the deferred function. -/
def runTaskComplete (loc : TimeLocation) (task : Task) (err : Option Error) (now : Int) :
    Task × String :=
  match err with
  | some e => (runTaskDeferred loc task now, "Scheduler: Task " ++ task.Name ++ " failed: " ++ e)
  | none =>
    (runTaskDeferred loc task now, "Scheduler: Task " ++ task.Name ++ " completed successfully")

/-- Apply `f` to the task at index `i`. -/
def updateTask (tasks : List Task) (i : Nat) (f : Task → Task) : List Task :=
  match tasks[i]? with
  | some t => tasks.set i (f t)
  | none => tasks

/-- The atomic steps of the scheduler and of the goroutines it creates. -/
inductive Event
  /-- A call of `AddTask`. -/
  | addTask (name schedule : String) (now : Int)
  /-- A call of `Start`. -/
  | start
  /-- The `run` loop receives `now` from the ticker and calls `checkTasks`. -/
  | tick (now : Int)
  /-- The `run` loop receives from `s.stop` and returns. -/
  | loopExit
  /-- A spawned `runTask` goroutine for task `i` sets `running = true`. -/
  | taskBegin (i : Nat)
  /-- The work unit of an active invocation of task `i` returns `err` at `now`. -/
  | taskEnd (i : Nat) (err : Option Error) (now : Int)
  /-- The statement `close(s.stop)` of `Stop`. -/
  | stopClose
  /-- The statement `s.wg.Wait()` of `Stop` returns, and `Stop` with it. -/
  | stopReturn
  deriving DecidableEq, Repr

/-- One atomic step; `none` when the step cannot happen in this state. -/
def step (loc : TimeLocation) (s : Scheduler) : Event → Option Scheduler
  | .addTask name schedule now => some (AddTask loc s name schedule now)
  | .start => some { s with wg := s.wg + 1, loops := s.loops + 1 }
  | .tick now => if 0 < s.loops then some (checkTasks s now) else none
  | .loopExit =>
    if 0 < s.loops ∧ s.stopClosed = true then some { s with wg := s.wg - 1, loops := s.loops - 1 }
    else none
  | .taskBegin i =>
    if i ∈ s.spawned then
      some { s with tasks := updateTask s.tasks i runTaskBegin, spawned := s.spawned.erase i,
                    active := i :: s.active }
    else none
  | .taskEnd i err now =>
    if i ∈ s.active then
      some { s with tasks := updateTask s.tasks i (fun t => (runTaskComplete loc t err now).1),
                    active := s.active.erase i }
    else none
  | .stopClose => if s.stopClosed then none else some { s with stopClosed := true }
  | .stopReturn => if s.stopClosed = true ∧ s.wg = 0 then some s else none

/-- Run a sequence of steps. -/
def run (loc : TimeLocation) (s : Scheduler) : List Event → Option Scheduler
  | [] => some s
  | e :: es => (step loc s e).bind (fun s1 => run loc s1 es)

/-- Number of invocations of task `i` whose work unit is in progress. -/
def inProgress (s : Scheduler) (i : Nat) : Nat := s.active.count i

/-! ## GeoIP manager (`src/geoip/geoip.go`) -/

/-- The constant `updateInterval`: one week. -/
def updateInterval : Int := 7 * 24 * Hour

/-- The keys of the `databases` map of `DownloadDatabases`: the four datasets. -/
inductive Db
  | cityIPv4
  | cityIPv6
  | country
  | asn
  deriving DecidableEq, Repr

/-- The constant `cityIPv4URL`. -/
def cityIPv4URL : String :=
  "https://cdn.jsdelivr.net/npm/@ip-location-db/geolite2-city-mmdb/geolite2-city-ipv4.mmdb"

/-- The constant `cityIPv6URL`. -/
def cityIPv6URL : String :=
  "https://cdn.jsdelivr.net/npm/@ip-location-db/geolite2-city-mmdb/geolite2-city-ipv6.mmdb"

/-- The constant `countryURL`. -/
def countryURL : String :=
  "https://cdn.jsdelivr.net/npm/@ip-location-db/geo-whois-asn-country-mmdb/geo-whois-asn-country.mmdb"

/-- The constant `asnURL`. -/
def asnURL : String := "https://cdn.jsdelivr.net/npm/@ip-location-db/asn-mmdb/asn.mmdb"

/-- A `*geoip2.Reader` that is not nil: the reader object, by its identity. -/
structure Reader where
  handle : Nat
  deriving DecidableEq, Repr

/-- The file system: the contents of the file at each path, `none` where no file exists. -/
abbrev FS := String → Option (List Nat)

/-- Write `data` as the contents of the file at `path`. -/
def FS.write (fs : FS) (path : String) (data : List Nat) : FS :=
  fun q => if q = path then some data else fs q

/-- What `http.Get` and the transfer of the body do for one URL. -/
inductive HttpResult
  /-- The request `http.Get` returns an error. -/
  | netErr
  /-- A response with this status code and body; with `copyErr = some n`, `io.Copy` fails (read
  or write error) once `n` bytes of the body have been written. -/
  | resp (status : Nat) (body : List Nat) (copyErr : Option Nat)
  deriving DecidableEq, Repr

/-- What lies outside the program: the network, the operations of the file system that can
fail, and the library function `geoip2.Open`, which returns a reader (or nil) and an error. -/
structure Env where
  httpGet : String → HttpResult
  createFails : String → Bool
  mkdirAllFails : String → Bool
  geoip2Open : String → FS → Option Reader × Option Error

/-- The state outside the `Manager`: the file system, and the URLs requested with `http.Get`
so far, oldest first. -/
structure World where
  fs : FS
  fetched : List String

/-- The struct `Manager`. -/
structure Manager where
  dataDir : String
  cityIPv4File : String
  cityIPv6File : String
  countryFile : String
  asnFile : String
  cityIPv4DB : Option Reader
  cityIPv6DB : Option Reader
  countryDB : Option Reader
  asnDB : Option Reader
  lastUpdate : Int
  updateInterval : Int
  deriving DecidableEq, Repr

/-- The zero value of `time.Time`: 0001-01-01 00:00:00, 719162 days before 1970-01-01. -/
def zeroTime : Int := -719162 * nsPerDay

/-- Go function `filepath.Join` on two clean components. -/
def join (dir name : String) : String := dir ++ "/" ++ name

/-- The function `NewManager`. -/
def NewManager (dataDir : String) : Manager :=
  let geoipDir := join dataDir "geoip"
  { dataDir := geoipDir
    cityIPv4File := join geoipDir "geolite2-city-ipv4.mmdb"
    cityIPv6File := join geoipDir "geolite2-city-ipv6.mmdb"
    countryFile := join geoipDir "geo-whois-asn-country.mmdb"
    asnFile := join geoipDir "asn.mmdb"
    cityIPv4DB := none, cityIPv6DB := none, countryDB := none, asnDB := none
    lastUpdate := zeroTime
    updateInterval := updateInterval }

/-- The result of a method of `Manager` that returns an `error`: the manager and the world
after the call, and the error (`none` for nil). -/
structure Result where
  mgr : Manager
  world : World
  err : Option Error

/-- The name under which `DownloadDatabases` lists a dataset. -/
def dbName : Db → String
  | .cityIPv4 => "geolite2-city-ipv4"
  | .cityIPv6 => "geolite2-city-ipv6"
  | .country => "geo-whois-asn-country"
  | .asn => "asn"

/-- The URL `DownloadDatabases` gives a dataset. -/
def dbURL : Db → String
  | .cityIPv4 => cityIPv4URL
  | .cityIPv6 => cityIPv6URL
  | .country => countryURL
  | .asn => asnURL

/-- The local file `DownloadDatabases` gives a dataset. -/
def Manager.dbFile (m : Manager) : Db → String
  | .cityIPv4 => m.cityIPv4File
  | .cityIPv6 => m.cityIPv6File
  | .country => m.countryFile
  | .asn => m.asnFile

/-- The reader field of a dataset. -/
def Manager.db (m : Manager) : Db → Option Reader
  | .cityIPv4 => m.cityIPv4DB
  | .cityIPv6 => m.cityIPv6DB
  | .country => m.countryDB
  | .asn => m.asnDB

/-- The method `downloadFile`. -/
def downloadFile (env : Env) (url localPath : String) (w : World) : World × Option Error :=
  let w := { w with fetched := w.fetched ++ [url] }
  match env.httpGet url with
  | .netErr => (w, some "Get: network error")
  | .resp status body copyErr =>
    if status ≠ 200 then (w, some "HTTP status is not 200")
    else if env.createFails localPath then (w, some "open: cannot create file")
    else
      match copyErr with
      | some n => ({ w with fs := w.fs.write localPath (body.take n) }, some "copy failed")
      | none => ({ w with fs := w.fs.write localPath body }, none)

/-- The loop of `DownloadDatabases` over the map `databases`, visited in the order `order`. -/
def downloadAll (env : Env) (m : Manager) : List Db → World → World × Option Error
  | [], w => (w, none)
  | d :: rest, w =>
    match downloadFile env (dbURL d) (m.dbFile d) w with
    | (w1, some err) => (w1, some ("failed to download " ++ dbName d ++ ": " ++ err))
    | (w1, none) => downloadAll env m rest w1

/-- The method `DownloadDatabases`; `order` is the order in which the iteration over the Go map
visits its four keys. -/
def Manager.DownloadDatabases (env : Env) (order : List Db) (m : Manager) (w : World) :
    World × Option Error :=
  downloadAll env m order w

/-- The method `loadDatabases`: its four assignments, each followed by its early return. -/
def Manager.loadDatabases (env : Env) (fs : FS) (m : Manager) : Manager × Option Error :=
  let r := env.geoip2Open m.cityIPv4File fs
  let m := { m with cityIPv4DB := r.1 }
  match r.2 with
  | some err => (m, some ("failed to load city IPv4 database: " ++ err))
  | none =>
    let r := env.geoip2Open m.cityIPv6File fs
    let m := { m with cityIPv6DB := r.1 }
    match r.2 with
    | some err => (m, some ("failed to load city IPv6 database: " ++ err))
    | none =>
      let r := env.geoip2Open m.countryFile fs
      let m := { m with countryDB := r.1 }
      match r.2 with
      | some err => (m, some ("failed to load country database: " ++ err))
      | none =>
        let r := env.geoip2Open m.asnFile fs
        let m := { m with asnDB := r.1 }
        match r.2 with
        | some err => (m, some ("failed to load ASN database: " ++ err))
        | none => (m, none)

/-- The largest `time.Duration`. -/
def maxDuration : Int := 2 ^ 63 - 1

/-- The smallest `time.Duration`. -/
def minDuration : Int := -(2 ^ 63)

/-- Go method `Time.Sub`, which saturates. -/
def timeSub (t u : Int) : Int :=
  if t - u > maxDuration then maxDuration
  else if t - u < minDuration then minDuration
  else t - u

/-- The method `ShouldUpdate`, with `time.Now()` passed as `now`. -/
def Manager.ShouldUpdate (m : Manager) (now : Int) : Bool :=
  decide (timeSub now m.lastUpdate > m.updateInterval)

/-- The method `Update`; `now` is the instant at which `ShouldUpdate` reads the clock and
`done` the instant of the final `time.Now()`. -/
def Manager.Update (env : Env) (order : List Db) (now done : Int) (m : Manager) (w : World) :
    Result :=
  if !m.ShouldUpdate now then ⟨m, w, none⟩
  else
    let d := m.DownloadDatabases env order w
    match d.2 with
    | some err => ⟨m, d.1, some err⟩
    | none =>
      let l := m.loadDatabases env d.1.fs
      match l.2 with
      | some err => ⟨l.1, d.1, some err⟩
      | none => ⟨{ l.1 with lastUpdate := done }, d.1, none⟩

/-- The struct `geoipReader`. -/
structure geoipReader where
  cityIPv4DB : Option Reader
  cityIPv6DB : Option Reader
  countryDB : Option Reader
  asnDB : Option Reader
  deriving DecidableEq, Repr

/-- The method `Reader`: the value of the struct it allocates. -/
def Manager.Reader (m : Manager) : geoipReader :=
  { cityIPv4DB := m.cityIPv4DB, cityIPv6DB := m.cityIPv6DB, countryDB := m.countryDB,
    asnDB := m.asnDB }

/-- The objects of the running program: the manager, the world, and the `geoipReader` structs
allocated so far, each addressed by its position. -/
structure Process where
  mgr : Manager
  world : World
  facades : List geoipReader

/-- A call `m.Reader()`: allocates a `geoipReader` and returns its address. -/
def Process.Reader (p : Process) : Process × Nat :=
  ({ p with facades := p.facades ++ [p.mgr.Reader] }, p.facades.length)

/-- A call `m.Update()`. -/
def Process.Update (env : Env) (order : List Db) (now done : Int) (p : Process) :
    Process × Option Error :=
  let r := p.mgr.Update env order now done p.world
  ({ p with mgr := r.mgr, world := r.world }, r.err)

/-! ## Lookup facade (`geoipReader` in `src/geoip/geoip.go`, `IsIPv6` in `src/utils/network.go`) -/

/-- A `net.IP`: a slice of bytes; the empty list stands for nil as well. -/
abbrev IP := List Nat

/-- Go function `isZeros` of package `net`. -/
def isZeros : List Nat → Bool
  | [] => true
  | b :: rest => if b ≠ 0 then false else isZeros rest

/-- Go method `net.IP.To4`; `none` is the nil result. -/
def To4 (ip : IP) : Option IP :=
  if ip.length = 4 then some ip
  else if ip.length = 16 ∧ isZeros (ip.take 10) = true ∧ ip[10]? = some 255 ∧
      ip[11]? = some 255 then
    some ((ip.drop 12).take 4)
  else none

/-- The function `IsIPv6` of `src/utils/network.go`. -/
def IsIPv6 (ip : IP) : Bool := (To4 ip).isNone

/-- A `float64`, by its bit pattern; the facade only copies such values. -/
structure Float64 where
  bits : Nat := 0
  deriving DecidableEq, Repr

/-- A Go `map[string]string`, as its key-value pairs; `m[k]` is `List.lookup k m`. -/
abbrev Names := List (String × String)

/-- The fields of `record.Country` and `record.RegisteredCountry` of the library `geoip2` that
the facade reads. -/
structure CountryInfo where
  Names : Names := []
  IsoCode : String := ""
  IsInEuropeanUnion : Bool := false
  deriving DecidableEq, Repr

/-- The record `geoip2.Country`, with the fields the facade reads; the default is the zero
value. -/
structure CountryRecord where
  Country : CountryInfo := {}
  RegisteredCountry : CountryInfo := {}
  deriving DecidableEq, Repr

/-- An element of `record.Subdivisions`. -/
structure Subdivision where
  Names : Names := []
  IsoCode : String := ""
  deriving DecidableEq, Repr

/-- The field `record.Location` of `geoip2.City`. -/
structure Location where
  Latitude : Float64 := {}
  Longitude : Float64 := {}
  MetroCode : Nat := 0
  TimeZone : String := ""
  deriving DecidableEq, Repr

/-- The record `geoip2.City`, with the fields the facade reads: `CityNames` is
`record.City.Names` and `PostalCode` is `record.Postal.Code`. -/
structure CityRecord where
  CityNames : Names := []
  Subdivisions : List Subdivision := []
  Location : Location := {}
  PostalCode : String := ""
  Country : CountryInfo := {}
  deriving DecidableEq, Repr

/-- The record `geoip2.ASN`. -/
structure ASNRecord where
  AutonomousSystemNumber : Nat := 0
  AutonomousSystemOrganization : String := ""
  deriving DecidableEq, Repr

/-- The lookup methods of the library `geoip2` on an opened reader: each returns a record or
an error. -/
structure Geoip2 where
  Country : Reader → IP → Except Error CountryRecord
  City : Reader → IP → Except Error CityRecord
  ASN : Reader → IP → Except Error ASNRecord

/-- Modelled from the spec: the struct `geo.Country` of the package `src/iputil/geo`, which is
not among the sources; its fields are those `geoipReader.Country` assigns, `IsEU` being a
pointer to a bool.  The default is the zero value. -/
structure geo.Country where
  Name : String := ""
  ISO : String := ""
  IsEU : Option Bool := none
  deriving DecidableEq, Repr

/-- Modelled from the spec: the struct `geo.City` of the package `src/iputil/geo`, which is not
among the sources; its fields are those `geoipReader.City` assigns.  The default is the zero
value. -/
structure geo.City where
  Name : String := ""
  RegionName : String := ""
  RegionCode : String := ""
  Latitude : Float64 := {}
  Longitude : Float64 := {}
  MetroCode : Nat := 0
  PostalCode : String := ""
  Timezone : String := ""
  deriving DecidableEq, Repr

/-- Modelled from the spec: the struct `geo.ASN` of the package `src/iputil/geo`, which is not
among the sources; its fields are those `geoipReader.ASN` assigns.  The default is the zero
value. -/
structure geo.ASN where
  AutonomousSystemNumber : Nat := 0
  AutonomousSystemOrganization : String := ""
  deriving DecidableEq, Repr

/-- What a query of the facade returns: the result, the error (`none` for nil), and the
readers on which it called the library, in order. -/
structure Lookup (α : Type) where
  value : α
  err : Option Error
  consulted : List Reader

/-- The method `geoipReader.Country`. -/
def geoipReader.Country (lib : Geoip2) (g : geoipReader) (ip : IP) : Lookup geo.Country :=
  let country : geo.Country := {}
  match g.countryDB with
  | none => ⟨country, none, []⟩
  | some db =>
    match lib.Country db ip with
    | .error err => ⟨country, some err, [db]⟩
    | .ok record =>
      let country :=
        match record.Country.Names.lookup "en" with
        | some c => { country with Name := c }
        | none => country
      let country :=
        match record.RegisteredCountry.Names.lookup "en" with
        | some c => if country.Name = "" then { country with Name := c } else country
        | none => country
      let country :=
        if record.Country.IsoCode ≠ "" then { country with ISO := record.Country.IsoCode }
        else country
      let country :=
        if record.RegisteredCountry.IsoCode ≠ "" ∧ country.ISO = "" then
          { country with ISO := record.RegisteredCountry.IsoCode }
        else country
      let isEU := record.Country.IsInEuropeanUnion || record.RegisteredCountry.IsInEuropeanUnion
      ⟨{ country with IsEU := some isEU }, none, [db]⟩

/-- The local variable `cityDB` of `geoipReader.City`: the city reader selected for `ip`. -/
def geoipReader.cityDB (g : geoipReader) (ip : IP) : Option Reader :=
  if (To4 ip).isSome then g.cityIPv4DB else g.cityIPv6DB

/-- The method `geoipReader.City`. -/
def geoipReader.City (lib : Geoip2) (g : geoipReader) (ip : IP) : Lookup geo.City :=
  let city : geo.City := {}
  match g.cityDB ip with
  | none => ⟨city, none, []⟩
  | some cityDB =>
    match lib.City cityDB ip with
    | .error err => ⟨city, some err, [cityDB]⟩
    | .ok record =>
      let city :=
        match record.CityNames.lookup "en" with
        | some c => { city with Name := c }
        | none => city
      let city :=
        match record.Subdivisions with
        | [] => city
        | sub :: _ =>
          let city :=
            match sub.Names.lookup "en" with
            | some c => { city with RegionName := c }
            | none => city
          if sub.IsoCode ≠ "" then { city with RegionCode := sub.IsoCode } else city
      let city :=
        { city with Latitude := record.Location.Latitude, Longitude := record.Location.Longitude }
      let city :=
        if record.Location.MetroCode > 0 ∧ record.Country.IsoCode = "US" then
          { city with MetroCode := record.Location.MetroCode }
        else city
      let city :=
        if record.PostalCode ≠ "" then { city with PostalCode := record.PostalCode } else city
      let city :=
        if record.Location.TimeZone ≠ "" then { city with Timezone := record.Location.TimeZone }
        else city
      ⟨city, none, [cityDB]⟩

/-- The method `geoipReader.ASN`. -/
def geoipReader.ASN (lib : Geoip2) (g : geoipReader) (ip : IP) : Lookup geo.ASN :=
  let asn : geo.ASN := {}
  match g.asnDB with
  | none => ⟨asn, none, []⟩
  | some db =>
    match lib.ASN db ip with
    | .error err => ⟨asn, some err, [db]⟩
    | .ok record =>
      let asn :=
        if record.AutonomousSystemNumber > 0 then
          { asn with AutonomousSystemNumber := record.AutonomousSystemNumber }
        else asn
      let asn :=
        if record.AutonomousSystemOrganization ≠ "" then
          { asn with AutonomousSystemOrganization := record.AutonomousSystemOrganization }
        else asn
      ⟨asn, none, [db]⟩

/-- The library `geoip2` with the readers the program has: `geoip2.Open` maps the file into
memory, so a lookup on a reader is answered from the bytes its file holds when the lookup is
made.  `fileOf` is the file a reader has mapped; the three decoders give the answer of a lookup
from those bytes. -/
structure MappedLib where
  fileOf : Reader → String
  country : List Nat → IP → Except Error CountryRecord
  city : List Nat → IP → Except Error CityRecord
  asn : List Nat → IP → Except Error ASNRecord

/-- The lookups of the memory-mapped library while the file system is `fs`. -/
def MappedLib.reading (ml : MappedLib) (fs : FS) : Geoip2 :=
  { Country := fun r ip =>
      match fs (ml.fileOf r) with
      | some data => ml.country data ip
      | none => .error "no file behind the reader"
    City := fun r ip =>
      match fs (ml.fileOf r) with
      | some data => ml.city data ip
      | none => .error "no file behind the reader"
    ASN := fun r ip =>
      match fs (ml.fileOf r) with
      | some data => ml.asn data ip
      | none => .error "no file behind the reader" }

/-! ## Concrete runs -/

/-- Position of a dataset in the order in which `loadDatabases` opens the four files. -/
def loadIndex : Db → Nat
  | .cityIPv4 => 0
  | .cityIPv6 => 1
  | .country => 2
  | .asn => 3

/-- The call of `geoip2.Open` that `loadDatabases` makes for a dataset. -/
def Manager.openDb (env : Env) (fs : FS) (m : Manager) (d : Db) :
    Option EchoIP.Reader × Option Error :=
  env.geoip2Open (m.dbFile d) fs

/-- An iteration order of the map `databases`. -/
def loadOrder : List Db := [.cityIPv4, .cityIPv6, .country, .asn]

/-- A manager whose four readers were loaded on 2023-12-29 (day 19720). -/
def readyManager : Manager :=
  { NewManager "data" with
    cityIPv4DB := some ⟨1⟩, cityIPv6DB := some ⟨2⟩, countryDB := some ⟨3⟩, asnDB := some ⟨4⟩
    lastUpdate := 19720 * nsPerDay }

/-- A file system holding the four files of `readyManager`. -/
def oldFiles : FS := fun q =>
  if q = "data/geoip/geolite2-city-ipv4.mmdb" then some [1]
  else if q = "data/geoip/geolite2-city-ipv6.mmdb" then some [2]
  else if q = "data/geoip/geo-whois-asn-country.mmdb" then some [3]
  else if q = "data/geoip/asn.mmdb" then some [4]
  else none

/-- The world of `oldFiles`, nothing fetched yet. -/
def oldWorld : World := ⟨oldFiles, []⟩

/-- A `geoip2.Open` that rejects a missing or empty file and otherwise returns the reader
numbered by the first byte of the file. -/
def openByFirstByte (path : String) (fs : FS) : Option Reader × Option Error :=
  match fs path with
  | none => (none, some "no such file")
  | some [] => (none, some "invalid database")
  | some (b :: _) => (some ⟨b⟩, none)

/-- An environment in which the request for the ASN dataset fails. -/
def asnDownEnv : Env :=
  { httpGet := fun url => if url = asnURL then .netErr else .resp 200 [11] none
    createFails := fun _ => false
    mkdirAllFails := fun _ => false
    geoip2Open := openByFirstByte }

/-- An environment in which every download succeeds and the city IPv6 dataset arrives empty. -/
def emptyIPv6Env : Env :=
  { httpGet := fun url => if url = cityIPv6URL then .resp 200 [] none else .resp 200 [11] none
    createFails := fun _ => false
    mkdirAllFails := fun _ => false
    geoip2Open := openByFirstByte }

/-- The registration of `main` on Friday 2024-01-05 10:00, `Start`, the tick of Sunday 03:01
and the tick of 03:02, both before the first spawned goroutine has set `running`. -/
def doubleDispatch : List Event :=
  [ .addTask "geoip-update" "0 3 * * 0" (19727 * nsPerDay + 10 * Hour), .start,
    .tick (19729 * nsPerDay + 3 * Hour + Minute),
    .tick (19729 * nsPerDay + 3 * Hour + 2 * Minute),
    .taskBegin 0, .taskBegin 0 ]

/-- A run in which `Stop` returns while the work unit dispatched at Sunday 03:01 has not
returned. -/
def stopDuringTask : List Event :=
  [ .addTask "geoip-update" "0 3 * * 0" (19727 * nsPerDay + 10 * Hour), .start,
    .tick (19729 * nsPerDay + 3 * Hour + Minute), .taskBegin 0,
    .stopClose, .loopExit, .stopReturn ]

/-- An environment in which every download and every load succeeds. -/
def goodEnv : Env :=
  { httpGet := fun _ => .resp 200 [11] none
    createFails := fun _ => false
    mkdirAllFails := fun _ => false
    geoip2Open := openByFirstByte }

/-- An environment in which the transfer of every body of four bytes breaks off after two. -/
def brokenCopyEnv : Env :=
  { httpGet := fun _ => .resp 200 [9, 8, 7, 6] (some 2)
    createFails := fun _ => false
    mkdirAllFails := fun _ => false
    geoip2Open := openByFirstByte }

/-- A process running `readyManager` that has handed out no facade yet. -/
def readyProcess : Process := ⟨readyManager, oldWorld, []⟩

/-- The IPv4 address 8.8.8.8, as four bytes. -/
def addr4 : IP := [8, 8, 8, 8]

/-- The IPv6 address 2001:4860:4860::8888. -/
def addr6 : IP := [32, 1, 72, 96, 72, 96, 0, 0, 0, 0, 0, 0, 0, 0, 136, 136]

/-- The facade of a manager whose `Initialize` failed before loading: no reader. -/
def degradedFacade : geoipReader := (NewManager "data").Reader

/-- The facade of `readyManager`: readers 1 to 4. -/
def readyFacade : geoipReader := readyManager.Reader

/-- A library whose datasets hold no record for any address: every lookup returns the zero
record and no error. -/
def noRecordLib : Geoip2 :=
  { Country := fun _ _ => .ok {}
    City := fun _ _ => .ok {}
    ASN := fun _ _ => .ok {} }

/-- A city record of New York with metro code 501. -/
def newYork : CityRecord :=
  { CityNames := [("en", "New York")]
    Subdivisions := [{ Names := [("en", "New York")], IsoCode := "NY" }]
    Location := { MetroCode := 501, TimeZone := "America/New_York" }
    PostalCode := "10001"
    Country := { Names := [("en", "United States")], IsoCode := "US" } }

/-- The same record with Canada as its country. -/
def notUS : CityRecord := { newYork with Country := { IsoCode := "CA" } }

/-- A country record without names or code of its own and with a registered country. -/
def registeredOnly : CountryRecord :=
  { Country := { Names := [("de", "Frankreich")] }
    RegisteredCountry :=
      { Names := [("en", "France")], IsoCode := "FR", IsInEuropeanUnion := true } }

/-- A library that answers with `newYork` on reader 1, with `notUS` on every other city
reader, and with `registeredOnly` for the country. -/
def sampleLib : Geoip2 :=
  { Country := fun _ _ => .ok registeredOnly
    City := fun r _ => if r.handle = 1 then .ok newYork else .ok notUS
    ASN := fun _ _ => .ok { AutonomousSystemNumber := 15169, AutonomousSystemOrganization := "GOOGLE" } }

/-- A memory-mapped library for the readers of `readyManager`: reader 1 maps the city IPv4
file, reader 2 the city IPv6 file, reader 3 the country file, reader 4 the ASN file; every city
is in the US with the first byte of the file as metro code, and that byte is the AS number. -/
def byteLib : MappedLib :=
  { fileOf := fun r =>
      if r.handle = 1 then "data/geoip/geolite2-city-ipv4.mmdb"
      else if r.handle = 2 then "data/geoip/geolite2-city-ipv6.mmdb"
      else if r.handle = 3 then "data/geoip/geo-whois-asn-country.mmdb"
      else "data/geoip/asn.mmdb"
    country := fun _ _ => .ok { Country := { IsoCode := "US" } }
    city := fun data _ =>
      .ok { Location := { MetroCode := data.headD 0 }, Country := { IsoCode := "US" } }
    asn := fun data _ => .ok { AutonomousSystemNumber := data.headD 0 } }

/-- A library whose datasets hold IPv4 addresses only and no record for any of them: a lookup
of a 16-byte address that is not an IPv4-mapped one returns an error, every other lookup the
zero record. -/
def ipv4OnlyLib : Geoip2 :=
  { Country := fun _ ip =>
      if IsIPv6 ip then .error "IPv6 address in an IPv4-only database" else .ok {}
    City := fun _ ip =>
      if IsIPv6 ip then .error "IPv6 address in an IPv4-only database" else .ok {}
    ASN := fun _ ip =>
      if IsIPv6 ip then .error "IPv6 address in an IPv4-only database" else .ok {} }

/-! ## Theorems -/

theorem Second_eq : Second = 1000000000 := rfl

theorem Minute_eq : Minute = 60000000000 := by decide

theorem Hour_eq : Hour = 3600000000000 := by decide

theorem nsPerDay_eq : nsPerDay = 86400000000000 := by decide

theorem wall_stable (loc : TimeLocation) (off T t : Int) (h : stableAround loc off T)
    (h1 : T / Second - 172800 ≤ t / Second) (h2 : t / Second ≤ T / Second + 777600) :
    wall loc t = t + off * Second := by
  simp only [wall, h.2.2 _ h1 h2]

theorem date_stable (loc : TimeLocation) (off T day hour min sec nsec : Int)
    (h : stableAround loc off T)
    (h1 : T / Second - 172800 ≤
      (day * nsPerDay + hour * Hour + min * Minute + sec * Second + nsec) / Second)
    (h2 : (day * nsPerDay + hour * Hour + min * Minute + sec * Second + nsec) / Second ≤
      T / Second + 777600)
    (h3 : T / Second - 172800 ≤
      (day * nsPerDay + hour * Hour + min * Minute + sec * Second + nsec) / Second - off)
    (h4 : (day * nsPerDay + hour * Hour + min * Minute + sec * Second + nsec) / Second - off ≤
      T / Second + 777600) :
    date loc day hour min sec nsec =
      day * nsPerDay + hour * Hour + min * Minute + sec * Second + nsec - off * Second := by
  obtain ⟨hlo, hhi, hst⟩ := h
  simp only [date]
  generalize day * nsPerDay + hour * Hour + min * Minute + sec * Second + nsec = w
    at h1 h2 h3 h4 ⊢
  simp only [Second_eq] at h1 h2 h3 h4 hst ⊢
  have e1 := hst (w / 1000000000) h1 h2
  have e2 := hst (w / 1000000000 - off) h3 h4
  rw [e1]
  simp only [e2, ite_self]
  split_ifs <;> omega

theorem addDate_stable (loc : TimeLocation) (off T k : Int) (h : stableAround loc off T)
    (hk0 : 0 ≤ k) (hk7 : k ≤ 7) : addDate loc T k = T + k * nsPerDay := by
  have hb := h
  obtain ⟨hlo, hhi, hst⟩ := hb
  have hw : wall loc T = T + off * Second := wall_stable loc off T T h (by omega) (by omega)
  simp only [addDate, civilDay, hw]
  rw [date_stable loc off T _ _ _ _ _ h] <;>
    simp only [nsPerDay_eq, Hour_eq, Minute_eq, Second_eq] <;> omega

theorem nextSunday_stable (loc : TimeLocation) (off T k : Int) (h : stableAround loc off T)
    (hk0 : 0 ≤ k) (hk7 : k ≤ 7) :
    date loc (civilDay loc (addDate loc T k)) 3 0 0 0 =
      ((T + off * Second) / nsPerDay + k) * nsPerDay + 3 * Hour - off * Second := by
  have hb := h
  obtain ⟨hlo, hhi, hst⟩ := hb
  have hw2 : wall loc (T + k * nsPerDay) = T + k * nsPerDay + off * Second :=
    wall_stable loc off T _ h (by simp only [nsPerDay_eq, Second_eq]; omega)
      (by simp only [nsPerDay_eq, Second_eq]; omega)
  rw [addDate_stable loc off T k h hk0 hk7]
  simp only [civilDay, hw2]
  rw [date_stable loc off T _ _ _ _ _ h] <;>
    simp only [nsPerDay_eq, Hour_eq, Minute_eq, Second_eq] <;> omega

theorem calculateNextRun_weekly_stable (loc : TimeLocation) (off T : Int)
    (h : stableAround loc off T) :
    calculateNextRun loc weeklyRule T =
      ((T + off * Second) / nsPerDay +
        (if (7 - ((T + off * Second) / nsPerDay + 4) % 7) % 7 = 0 ∧
            (T + off * Second) % nsPerDay / Hour ≥ 3 then 7
          else (7 - ((T + off * Second) / nsPerDay + 4) % 7) % 7)) * nsPerDay + 3 * Hour -
        off * Second := by
  have hw : wall loc T = T + off * Second :=
    wall_stable loc off T T h (by omega) (by omega)
  simp only [calculateNextRun, weeklyRule, if_true, weekday, hourOf]
  rw [nextSunday_stable loc off T _ h]
  · simp only [civilDay, hw]
  · split_ifs <;> omega
  · split_ifs <;> omega

/-- On a window without offset change the weekly rule gives the first Sunday 03:00:00 strictly
after `T`. -/
theorem calculateNextRun_weekly_spec (loc : TimeLocation) (off T : Int)
    (h : stableAround loc off T) :
    T < calculateNextRun loc weeklyRule T ∧
    isSunday3 loc (calculateNextRun loc weeklyRule T) ∧
    (∀ s : Int, T < s → isSunday3 loc s → calculateNextRun loc weeklyRule T ≤ s) ∧
    (weekday loc T = 0 → hourOf loc T ≥ 3 →
      calculateNextRun loc weeklyRule T = date loc (civilDay loc T + 7) 3 0 0 0 ∧
      calculateNextRun loc weeklyRule T = T - wall loc T % nsPerDay + 7 * nsPerDay + 3 * Hour) ∧
    (weekday loc T = 5 → wall loc T % nsPerDay = 10 * Hour →
      calculateNextRun loc weeklyRule T = date loc (civilDay loc T + 2) 3 0 0 0 ∧
      calculateNextRun loc weeklyRule T = T + 2 * nsPerDay - 7 * Hour) := by
  have hb := h
  obtain ⟨hlo, hhi, hst⟩ := hb
  have hw : wall loc T = T + off * Second :=
    wall_stable loc off T T h (by omega) (by omega)
  have hr := calculateNextRun_weekly_stable loc off T h
  have hd : ∀ k : Int, 0 ≤ k → k ≤ 7 → date loc (civilDay loc T + k) 3 0 0 0 =
      ((T + off * Second) / nsPerDay + k) * nsPerDay + 3 * Hour - off * Second := by
    intro k hk0 hk7
    simp only [civilDay, hw]
    rw [date_stable loc off T _ _ _ _ _ h] <;>
      simp only [nsPerDay_eq, Hour_eq, Minute_eq, Second_eq] <;> omega
  have hwr : wall loc (calculateNextRun loc weeklyRule T) =
      calculateNextRun loc weeklyRule T + off * Second := by
    apply wall_stable loc off T _ h
    · rw [hr]
      simp only [nsPerDay_eq, Hour_eq, Second_eq]
      split_ifs <;> omega
    · rw [hr]
      simp only [nsPerDay_eq, Hour_eq, Second_eq]
      split_ifs <;> omega
  refine ⟨?_, ?_, ?_, ?_, ?_⟩
  · rw [hr]
    simp only [nsPerDay_eq, Hour_eq, Second_eq]
    split_ifs <;> omega
  · simp only [isSunday3, weekday, civilDay, hwr]
    rw [hr]
    simp only [nsPerDay_eq, Hour_eq, Second_eq]
    split_ifs <;> constructor <;> omega
  · intro s hs hsun
    by_cases hfar : s ≤ T + 8 * nsPerDay
    · have hws : wall loc s = s + off * Second := by
        apply wall_stable loc off T _ h
        · simp only [Second_eq]; omega
        · simp only [nsPerDay_eq, Second_eq] at hfar ⊢; omega
      simp only [isSunday3, weekday, civilDay, hws] at hsun
      rw [hr]
      simp only [nsPerDay_eq, Hour_eq, Second_eq] at hsun hfar ⊢
      obtain ⟨hs1, hs2⟩ := hsun
      split_ifs <;> omega
    · rw [hr]
      simp only [nsPerDay_eq, Hour_eq, Second_eq] at hfar ⊢
      split_ifs <;> omega
  · intro hwd hh
    simp only [weekday, hourOf, civilDay, hw] at hwd hh
    rw [hd 7 (by omega) (by omega), hr, hw]
    simp only [nsPerDay_eq, Hour_eq, Second_eq] at hwd hh ⊢
    split_ifs <;> constructor <;> omega
  · intro hwd hc
    simp only [weekday, civilDay, hw] at hwd hc
    rw [hd 2 (by omega) (by omega), hr]
    simp only [nsPerDay_eq, Hour_eq, Second_eq] at hwd hc ⊢
    split_ifs <;> constructor <;> omega

theorem stableAround_Helsinki_winter (T : Int) (h1 : 1698714000 ≤ T / Second)
    (h2 : T / Second ≤ 1711069199) : stableAround Helsinki 7200 T := by
  refine ⟨by omega, by omega, fun u hu1 hu2 => ?_⟩
  simp only [Helsinki]
  split_ifs <;> first | rfl | omega

theorem calculateNextRun_default (loc : TimeLocation) (schedule : String) (now : Int)
    (h : schedule ≠ weeklyRule) :
    calculateNextRun loc schedule now = now + 7 * nsPerDay ∧
    now < calculateNextRun loc schedule now := by
  simp only [calculateNextRun, weeklyRule] at h ⊢
  simp only [h, if_false, timeAdd, nsPerDay_eq, Hour_eq]
  constructor <;> omega

theorem run_append (loc : TimeLocation) (s : Scheduler) (a b : List Event) :
    run loc s (a ++ b) = (run loc s a).bind (fun s1 => run loc s1 b) := by
  induction a generalizing s with
  | nil => simp [run]
  | cons e es ih =>
    simp only [List.cons_append, run]
    cases h : step loc s e with
    | none => simp
    | some s1 => simp [ih]

/-- The `WaitGroup` counter equals the number of live `run` goroutines. -/
theorem step_wg_loops (loc : TimeLocation) (s s1 : Scheduler) (e : Event)
    (h : step loc s e = some s1)
    (hinv : s.wg = s.loops) : s1.wg = s1.loops := by
  cases e <;> simp only [step] at h
  case addTask => cases h; simpa [AddTask] using hinv
  case start => cases h; simpa using hinv
  case tick => split at h <;> cases h; simpa [checkTasks] using hinv
  case loopExit => split at h <;> cases h; simp; omega
  case taskBegin => split at h <;> cases h; simpa using hinv
  case taskEnd => split at h <;> cases h; simpa using hinv
  case stopClose => split at h <;> cases h; simpa using hinv
  case stopReturn => split at h <;> cases h; exact hinv

theorem run_wg_loops (loc : TimeLocation) (evs : List Event) (s s1 : Scheduler)
    (h : run loc s evs = some s1)
    (hinv : s.wg = s.loops) : s1.wg = s1.loops := by
  induction evs generalizing s with
  | nil => simp only [run, Option.some.injEq] at h; subst h; exact hinv
  | cons e es ih =>
    simp only [run] at h
    cases hs : step loc s e with
    | none => simp [hs] at h
    | some s2 =>
      simp only [hs, Option.some_bind] at h
      exact ih s2 h (step_wg_loops loc s s2 e hs hinv)

/-- With no live loop and no further `Start`, no tick can happen and no loop appears. -/
theorem run_no_loop (loc : TimeLocation) (evs : List Event) (s s1 : Scheduler)
    (h : run loc s evs = some s1)
    (h0 : s.loops = 0) (hstart : Event.start ∉ evs) :
    (∀ now, Event.tick now ∉ evs) ∧ s1.loops = 0 := by
  induction evs generalizing s with
  | nil => simp only [run, Option.some.injEq] at h; subst h; simp [h0]
  | cons e es ih =>
    simp only [run] at h
    cases hs : step loc s e with
    | none => simp [hs] at h
    | some s2 =>
      simp only [hs, Option.some_bind] at h
      simp only [List.mem_cons, not_or] at hstart
      have h2 : s2.loops = 0 ∧ ∀ now, e ≠ Event.tick now := by
        cases e <;> simp only [step] at hs
        case addTask => cases hs; simpa [AddTask] using h0
        case start => exact absurd rfl hstart.1
        case tick => split at hs <;> [omega; cases hs]
        case loopExit => split at hs <;> cases hs; simp; omega
        case taskBegin => split at hs <;> cases hs; simpa using h0
        case taskEnd => split at hs <;> cases hs; simpa using h0
        case stopClose => split at hs <;> cases hs; simpa using h0
        case stopReturn => split at hs <;> cases hs; simpa using h0
      obtain ⟨ih1, ih2⟩ := ih s2 h h2.1 hstart.2
      refine ⟨fun now hmem => ?_, ih2⟩
      rcases List.mem_cons.1 hmem with heq | hmem
      · exact h2.2 now heq.symm
      · exact ih1 now hmem

/-- C4: after two ticks that both find the task due with `running` still false, two invocations
of the same task are in progress at once. -/
theorem checkTasks_dispatches_twice :
    (run UTC New doubleDispatch).map (fun s => inProgress s 0) = some 2 := by
  decide

/-- C5, as stated, fails: `Stop` has returned and an invocation is still in progress. -/
theorem stop_returns_with_task_in_progress :
    (run UTC New stopDuringTask).map (fun s => (inProgress s 0, s.loops)) = some (1, 0) := by
  decide

/-- C5, amended: once `Stop` has returned, and as long as `Start` is not called again, no tick
occurs and no `run` loop is alive. -/
theorem stop_ends_ticks (loc : TimeLocation) (evs1 evs2 : List Event)
    (h : (run loc New (evs1 ++ Event.stopReturn :: evs2)).isSome = true)
    (hstart : Event.start ∉ evs2) :
    (∀ now, Event.tick now ∉ evs2) ∧
    ∀ s, run loc New (evs1 ++ Event.stopReturn :: evs2) = some s → s.loops = 0 := by
  rw [run_append] at h
  cases h1 : run loc New evs1 with
  | none => simp [h1] at h
  | some s1 =>
    have hinv := run_wg_loops loc evs1 New s1 h1 rfl
    simp only [h1, Option.some_bind, run] at h
    cases h2 : step loc s1 Event.stopReturn with
    | none => simp [h2] at h
    | some s2 =>
      simp only [h2, Option.some_bind] at h
      have hs2 : s2.loops = 0 := by
        simp only [step] at h2
        split at h2 <;> cases h2
        omega
      cases h3 : run loc s2 evs2 with
      | none => simp [h3] at h
      | some s3 =>
        obtain ⟨ht, hl⟩ := run_no_loop loc evs2 s2 s3 h3 hs2 hstart
        refine ⟨ht, fun s hs => ?_⟩
        rw [run_append, h1] at hs
        simp only [Option.some_bind, run, h2, h3, Option.some.injEq] at hs
        subst hs
        exact hl

/-- The run `stopDuringTask` continued by the completion of the work unit. -/
theorem stop_ends_ticks_witness :
    (∀ now, Event.tick now ∉ [Event.taskEnd 0 none (19729 * nsPerDay + 4 * Hour)]) ∧
    ∀ s, run UTC New (stopDuringTask.dropLast ++
      Event.stopReturn :: [Event.taskEnd 0 none (19729 * nsPerDay + 4 * Hour)]) = some s →
      s.loops = 0 :=
  stop_ends_ticks UTC stopDuringTask.dropLast
    [Event.taskEnd 0 none (19729 * nsPerDay + 4 * Hour)] (by decide) (by decide)

theorem downloadFile_err_indep (env : Env) (url path : String) (w w1 : World) :
    (downloadFile env url path w).2 = (downloadFile env url path w1).2 := by
  simp only [downloadFile]
  cases env.httpGet url with
  | netErr => rfl
  | resp status body copyErr =>
    simp only
    split_ifs
    · rfl
    · rfl
    · cases copyErr <;> rfl

theorem downloadFile_fetched (env : Env) (url path : String) (w : World) :
    (downloadFile env url path w).1.fetched = w.fetched ++ [url] := by
  simp only [downloadFile]
  cases env.httpGet url with
  | netErr => rfl
  | resp status body copyErr =>
    simp only
    split_ifs
    · rfl
    · rfl
    · cases copyErr <;> rfl

theorem downloadAll_fail (env : Env) (m : Manager) (order : List Db) (w w0 : World) (d : Db)
    (hd : d ∈ order) (hfail : (downloadFile env (dbURL d) (m.dbFile d) w0).2.isSome = true) :
    (downloadAll env m order w).2.isSome = true := by
  induction order generalizing w with
  | nil => cases hd
  | cons a rest ih =>
    simp only [downloadAll]
    cases h : downloadFile env (dbURL a) (m.dbFile a) w with
    | mk w1 e =>
      cases e with
      | some err => rfl
      | none =>
        simp only
        rcases List.mem_cons.1 hd with rfl | hmem
        · rw [downloadFile_err_indep env _ _ w0 w, h] at hfail
          cases hfail
        · exact ih w1 hmem

theorem downloadAll_ok (env : Env) (m : Manager) (order : List Db) (w w0 : World)
    (hok : ∀ d ∈ order, (downloadFile env (dbURL d) (m.dbFile d) w0).2 = none) :
    (downloadAll env m order w).2 = none ∧
    (downloadAll env m order w).1.fetched = w.fetched ++ order.map dbURL := by
  induction order generalizing w with
  | nil => simp [downloadAll]
  | cons a rest ih =>
    simp only [downloadAll]
    have ha := hok a (List.mem_cons_self _ _)
    rw [downloadFile_err_indep env _ _ w0 w] at ha
    have hf := downloadFile_fetched env (dbURL a) (m.dbFile a) w
    cases h : downloadFile env (dbURL a) (m.dbFile a) w with
    | mk w1 e =>
      rw [h] at ha hf
      simp only at ha hf
      subst ha
      simp only
      obtain ⟨h1, h2⟩ := ih w1 (fun d hd => hok d (List.mem_cons_of_mem _ hd))
      exact ⟨h1, by rw [h2, hf]; simp⟩

theorem downloadFile_frame (env : Env) (url path : String) (w : World) (q : String)
    (hq : path ≠ q) : (downloadFile env url path w).1.fs q = w.fs q := by
  have hq2 : q ≠ path := fun h => hq h.symm
  simp only [downloadFile]
  cases env.httpGet url with
  | netErr => rfl
  | resp status body copyErr =>
    simp only
    split_ifs
    · rfl
    · rfl
    · cases copyErr <;> simp [FS.write, hq2]

/-- The loop of `DownloadDatabases` stops at the first failing download: with `d` the first
dataset of the order whose download fails, exactly the datasets up to and including `d` are
requested, and no file other than theirs is written. -/
theorem downloadAll_stops (env : Env) (m : Manager) (pre post : List Db) (d : Db) (w w0 : World)
    (hpre : ∀ x ∈ pre, (downloadFile env (dbURL x) (m.dbFile x) w0).2 = none)
    (hd : (downloadFile env (dbURL d) (m.dbFile d) w0).2.isSome = true) :
    (downloadAll env m (pre ++ d :: post) w).2.isSome = true ∧
    (downloadAll env m (pre ++ d :: post) w).1.fetched = w.fetched ++ (pre ++ [d]).map dbURL ∧
    ∀ q, (∀ x ∈ pre ++ [d], m.dbFile x ≠ q) →
      (downloadAll env m (pre ++ d :: post) w).1.fs q = w.fs q := by
  induction pre generalizing w with
  | nil =>
    simp only [List.nil_append, downloadAll]
    have hf := downloadFile_fetched env (dbURL d) (m.dbFile d) w
    have hfr := downloadFile_frame env (dbURL d) (m.dbFile d) w
    rw [downloadFile_err_indep env _ _ w0 w] at hd
    cases h : downloadFile env (dbURL d) (m.dbFile d) w with
    | mk w1 e =>
      rw [h] at hd hf hfr
      cases e with
      | none => cases hd
      | some err =>
        simp only at hf hfr ⊢
        exact ⟨rfl, by simp [hf], fun q hq => hfr q (hq d (by simp))⟩
  | cons a rest ih =>
    simp only [List.cons_append, downloadAll]
    have ha := hpre a (List.mem_cons_self _ _)
    rw [downloadFile_err_indep env _ _ w0 w] at ha
    have hf := downloadFile_fetched env (dbURL a) (m.dbFile a) w
    have hfr := downloadFile_frame env (dbURL a) (m.dbFile a) w
    cases h : downloadFile env (dbURL a) (m.dbFile a) w with
    | mk w1 e =>
      rw [h] at ha hf hfr
      simp only at ha hf hfr
      subst ha
      simp only
      obtain ⟨h1, h2, h3⟩ := ih w1 (fun x hx => hpre x (List.mem_cons_of_mem _ hx))
      refine ⟨h1, h2.trans (by rw [hf]; simp), fun q hq => ?_⟩
      exact (h3 q (fun x hx => hq x (List.mem_cons_of_mem _ hx))).trans
        (hfr q (hq a (List.mem_cons_self _ _)))

theorem downloadAll_frame (env : Env) (m : Manager) (order : List Db) (w : World) (q : String)
    (hq : ∀ x ∈ order, m.dbFile x ≠ q) : (downloadAll env m order w).1.fs q = w.fs q := by
  induction order generalizing w with
  | nil => rfl
  | cons a rest ih =>
    simp only [downloadAll]
    have hfr := downloadFile_frame env (dbURL a) (m.dbFile a) w q (hq a (List.mem_cons_self _ _))
    cases h : downloadFile env (dbURL a) (m.dbFile a) w with
    | mk w1 e =>
      rw [h] at hfr
      simp only at hfr
      cases e with
      | some err => exact hfr
      | none =>
        simp only
        rw [ih w1 (fun x hx => hq x (List.mem_cons_of_mem _ hx)), hfr]

theorem Update_world (env : Env) (order : List Db) (now done : Int) (m : Manager) (w : World) :
    (m.Update env order now done w).world =
      if m.ShouldUpdate now = true then (downloadAll env m order w).1 else w := by
  simp only [Manager.Update, Manager.DownloadDatabases]
  by_cases hdue : m.ShouldUpdate now = true
  · simp only [hdue, Bool.not_true, Bool.false_eq_true, if_false, if_true]
    generalize downloadAll env m order w = dl
    obtain ⟨w1, _ | e⟩ := dl
    · simp only
      generalize m.loadDatabases env w1.fs = l
      obtain ⟨m1, _ | e1⟩ := l <;> rfl
    · rfl
  · simp [hdue]

theorem Update_download_error (env : Env) (order : List Db) (now done : Int) (m : Manager)
    (w : World) (hdue : m.ShouldUpdate now = true)
    (h : (downloadAll env m order w).2.isSome = true) :
    (m.Update env order now done w).err.isSome = true ∧ (m.Update env order now done w).mgr = m := by
  simp only [Manager.Update, hdue, Manager.DownloadDatabases]
  cases he : (downloadAll env m order w).2 with
  | none => rw [he] at h; cases h
  | some err => simp

theorem Country_reading_congr (ml : MappedLib) (g : geoipReader) (ip : IP) (fs fs1 : FS)
    (h : ∀ db, g.countryDB = some db → fs1 (ml.fileOf db) = fs (ml.fileOf db)) :
    g.Country (ml.reading fs1) ip = g.Country (ml.reading fs) ip := by
  simp only [geoipReader.Country]
  cases hdb : g.countryDB with
  | none => rfl
  | some db => simp only [MappedLib.reading, h db hdb]

theorem City_reading_congr (ml : MappedLib) (g : geoipReader) (ip : IP) (fs fs1 : FS)
    (h : ∀ db, g.cityDB ip = some db → fs1 (ml.fileOf db) = fs (ml.fileOf db)) :
    g.City (ml.reading fs1) ip = g.City (ml.reading fs) ip := by
  simp only [geoipReader.City]
  cases hdb : g.cityDB ip with
  | none => rfl
  | some db => simp only [MappedLib.reading, h db hdb]

theorem ASN_reading_congr (ml : MappedLib) (g : geoipReader) (ip : IP) (fs fs1 : FS)
    (h : ∀ db, g.asnDB = some db → fs1 (ml.fileOf db) = fs (ml.fileOf db)) :
    g.ASN (ml.reading fs1) ip = g.ASN (ml.reading fs) ip := by
  simp only [geoipReader.ASN]
  cases hdb : g.asnDB with
  | none => rfl
  | some db => simp only [MappedLib.reading, h db hdb]

/-- C1, as stated, fails: the refresh of `readyManager` fails on the ASN download and leaves
the four readers as they were, but the city IPv4 file has been rewritten under its reader, and
the facade taken afterwards answers metro code 11 where the facade taken before answered 1. -/
theorem Update_fetch_failure_changes_answers :
    (readyManager.Update asnDownEnv loadOrder (19729 * nsPerDay) (19729 * nsPerDay + Minute)
      oldWorld).err.isSome = true ∧
    (readyManager.Update asnDownEnv loadOrder (19729 * nsPerDay) (19729 * nsPerDay + Minute)
      oldWorld).mgr.Reader = readyManager.Reader ∧
    (readyManager.Reader.City (byteLib.reading oldWorld.fs) addr4).value.MetroCode = 1 ∧
    ((readyManager.Update asnDownEnv loadOrder (19729 * nsPerDay) (19729 * nsPerDay + Minute)
      oldWorld).mgr.Reader.City
        (byteLib.reading (readyManager.Update asnDownEnv loadOrder (19729 * nsPerDay)
          (19729 * nsPerDay + Minute) oldWorld).world.fs) addr4).value.MetroCode = 11 := by
  decide

/-- C1, amended: when a refresh is due and the fetch of one of the four datasets fails, `Update`
returns an error and leaves the manager, its four readers and `lastUpdate` included, as it was,
so that `Reader()` afterwards returns a facade on the same four readers.  With `d` the first
dataset of the iteration order whose download fails, the datasets up to and including `d` have
been requested and no file other than theirs has been written.  A query of the facade answers
as before the call whenever the file mapped by the reader it uses holds what it held before. -/
theorem Update_fetch_failure_keeps_manager (env : Env) (order : List Db) (now done : Int)
    (m : Manager) (w : World) (hdue : m.ShouldUpdate now = true) (hall : ∀ d, d ∈ order)
    (hfail : ∃ d, (downloadFile env (dbURL d) (m.dbFile d) w).2.isSome = true) :
    (m.Update env order now done w).err.isSome = true ∧
    (m.Update env order now done w).mgr = m ∧
    (m.Update env order now done w).mgr.Reader = m.Reader ∧
    (∀ pre d post, order = pre ++ d :: post →
      (∀ x ∈ pre, (downloadFile env (dbURL x) (m.dbFile x) w).2 = none) →
      (downloadFile env (dbURL d) (m.dbFile d) w).2.isSome = true →
      (m.Update env order now done w).world.fetched = w.fetched ++ (pre ++ [d]).map dbURL ∧
      ∀ q, (∀ x ∈ pre ++ [d], m.dbFile x ≠ q) →
        (m.Update env order now done w).world.fs q = w.fs q) ∧
    (∀ (ml : MappedLib) (ip : IP),
      ((∀ db, m.countryDB = some db →
          (m.Update env order now done w).world.fs (ml.fileOf db) = w.fs (ml.fileOf db)) →
        (m.Update env order now done w).mgr.Reader.Country
          (ml.reading (m.Update env order now done w).world.fs) ip =
          m.Reader.Country (ml.reading w.fs) ip) ∧
      ((∀ db, m.Reader.cityDB ip = some db →
          (m.Update env order now done w).world.fs (ml.fileOf db) = w.fs (ml.fileOf db)) →
        (m.Update env order now done w).mgr.Reader.City
          (ml.reading (m.Update env order now done w).world.fs) ip =
          m.Reader.City (ml.reading w.fs) ip) ∧
      ((∀ db, m.asnDB = some db →
          (m.Update env order now done w).world.fs (ml.fileOf db) = w.fs (ml.fileOf db)) →
        (m.Update env order now done w).mgr.Reader.ASN
          (ml.reading (m.Update env order now done w).world.fs) ip =
          m.Reader.ASN (ml.reading w.fs) ip)) := by
  obtain ⟨d, hd⟩ := hfail
  have h := downloadAll_fail env m order w w d (hall d) hd
  obtain ⟨herr, hmgr⟩ := Update_download_error env order now done m w hdue h
  have hw := Update_world env order now done m w
  simp only [hdue, if_true] at hw
  refine ⟨herr, hmgr, by rw [hmgr], fun pre d1 post ho hpre hd1 => ?_, fun ml ip => ?_⟩
  · subst ho
    rw [hw]
    exact (downloadAll_stops env m pre post d1 w w hpre hd1).2
  · rw [hmgr]
    exact ⟨fun hf => Country_reading_congr ml m.Reader ip _ _ hf,
      fun hf => City_reading_congr ml m.Reader ip _ _ hf,
      fun hf => ASN_reading_congr ml m.Reader ip _ _ hf⟩

/-- A due refresh of `readyManager` during which the ASN download fails: the manager is as it
was and the country query of the facade, whose file is not the one rewritten last, answers as
it would on the files written. -/
theorem Update_fetch_failure_keeps_manager_witness :
    (readyManager.Update asnDownEnv loadOrder (19729 * nsPerDay) (19729 * nsPerDay + Minute)
      oldWorld).err.isSome = true ∧
    (readyManager.Update asnDownEnv loadOrder (19729 * nsPerDay) (19729 * nsPerDay + Minute)
      oldWorld).mgr = readyManager ∧
    (readyManager.Update asnDownEnv loadOrder (19729 * nsPerDay) (19729 * nsPerDay + Minute)
      oldWorld).world.fetched = oldWorld.fetched ++ loadOrder.map dbURL :=
  have h := Update_fetch_failure_keeps_manager asnDownEnv loadOrder (19729 * nsPerDay)
    (19729 * nsPerDay + Minute) readyManager oldWorld (by decide)
    (by intro d; cases d <;> decide) ⟨Db.asn, by decide⟩
  ⟨h.1, h.2.1, (h.2.2.2.1 [Db.cityIPv4, Db.cityIPv6, Db.country] Db.asn [] rfl
    (by decide) (by decide)).1⟩

theorem loadDatabases_failure (env : Env) (fs : FS) (m : Manager)
    (hfail : ∃ d, (m.openDb env fs d).2.isSome = true) :
    (m.loadDatabases env fs).2.isSome = true ∧
    (m.loadDatabases env fs).1.lastUpdate = m.lastUpdate ∧
    ∃ k, (m.openDb env fs k).2.isSome = true ∧
      (m.loadDatabases env fs).1.db k = (m.openDb env fs k).1 ∧
      (∀ d, loadIndex d < loadIndex k →
        (m.openDb env fs d).2 = none ∧ (m.loadDatabases env fs).1.db d = (m.openDb env fs d).1) ∧
      (∀ d, loadIndex k < loadIndex d → (m.loadDatabases env fs).1.db d = m.db d) := by
  obtain ⟨d0, hd0⟩ := hfail
  simp only [Manager.loadDatabases]
  cases h1 : (env.geoip2Open m.cityIPv4File fs).2 with
  | some e =>
    refine ⟨rfl, rfl, Db.cityIPv4, by simp [Manager.openDb, Manager.dbFile, h1], rfl, ?_, ?_⟩
    · intro d hd; cases d <;> simp [loadIndex] at hd
    · intro d hd; cases d <;> first | rfl | simp [loadIndex] at hd
  | none =>
    simp only
    cases h2 : (env.geoip2Open m.cityIPv6File fs).2 with
    | some e =>
      refine ⟨rfl, rfl, Db.cityIPv6, by simp [Manager.openDb, Manager.dbFile, h2], rfl, ?_, ?_⟩
      · intro d hd
        cases d <;> first | exact ⟨h1, rfl⟩ | simp [loadIndex] at hd
      · intro d hd; cases d <;> first | rfl | simp [loadIndex] at hd
    | none =>
      simp only
      cases h3 : (env.geoip2Open m.countryFile fs).2 with
      | some e =>
        refine ⟨rfl, rfl, Db.country, by simp [Manager.openDb, Manager.dbFile, h3], rfl, ?_, ?_⟩
        · intro d hd
          cases d <;> first | exact ⟨h1, rfl⟩ | exact ⟨h2, rfl⟩ | simp [loadIndex] at hd
        · intro d hd; cases d <;> first | rfl | simp [loadIndex] at hd
      | none =>
        simp only
        cases h4 : (env.geoip2Open m.asnFile fs).2 with
        | some e =>
          refine ⟨rfl, rfl, Db.asn, by simp [Manager.openDb, Manager.dbFile, h4], rfl, ?_, ?_⟩
          · intro d hd
            cases d <;>
              first | exact ⟨h1, rfl⟩ | exact ⟨h2, rfl⟩ | exact ⟨h3, rfl⟩ | simp [loadIndex] at hd
          · intro d hd; cases d <;> simp [loadIndex] at hd
        | none =>
          cases d0 <;> simp [Manager.openDb, Manager.dbFile, h1, h2, h3, h4] at hd0

/-- C2, as stated, fails: every download succeeds, the city IPv6 file cannot be opened, and
`Update` leaves a new city IPv4 reader, a nil city IPv6 reader and the old country and ASN
readers. -/
theorem Update_load_failure_mixes_readers :
    (readyManager.Update emptyIPv6Env loadOrder (19729 * nsPerDay) (19729 * nsPerDay + Minute)
      oldWorld).err.isSome = true ∧
    (readyManager.Update emptyIPv6Env loadOrder (19729 * nsPerDay) (19729 * nsPerDay + Minute)
      oldWorld).mgr.Reader = ⟨some ⟨11⟩, none, some ⟨3⟩, some ⟨4⟩⟩ ∧
    readyManager.Reader = ⟨some ⟨1⟩, some ⟨2⟩, some ⟨3⟩, some ⟨4⟩⟩ := by
  decide

/-- C2, amended: when a refresh is due, every download succeeds and opening one of the fetched
files fails, `Update` returns an error and leaves `lastUpdate` as it was; with `k` the first
dataset, in the order city IPv4, city IPv6, country, ASN, whose file fails to open, the readers
of the datasets before `k` are the newly opened ones, the reader of `k` is what `geoip2.Open`
returned with its error, and the readers of the datasets after `k` are the previous ones. -/
theorem Update_load_failure_state (env : Env) (order : List Db) (now done : Int) (m : Manager)
    (w : World) (hdue : m.ShouldUpdate now = true)
    (hdl : (m.DownloadDatabases env order w).2 = none)
    (hfail : ∃ d, (m.openDb env (m.DownloadDatabases env order w).1.fs d).2.isSome = true) :
    (m.Update env order now done w).err.isSome = true ∧
    (m.Update env order now done w).mgr.lastUpdate = m.lastUpdate ∧
    ∃ k, (m.openDb env (m.DownloadDatabases env order w).1.fs k).2.isSome = true ∧
      (m.Update env order now done w).mgr.db k =
        (m.openDb env (m.DownloadDatabases env order w).1.fs k).1 ∧
      (∀ d, loadIndex d < loadIndex k →
        (m.openDb env (m.DownloadDatabases env order w).1.fs d).2 = none ∧
        (m.Update env order now done w).mgr.db d =
          (m.openDb env (m.DownloadDatabases env order w).1.fs d).1) ∧
      (∀ d, loadIndex k < loadIndex d → (m.Update env order now done w).mgr.db d = m.db d) := by
  have h := loadDatabases_failure env (m.DownloadDatabases env order w).1.fs m hfail
  have hu : (m.Update env order now done w).mgr =
        (m.loadDatabases env (m.DownloadDatabases env order w).1.fs).1 ∧
      (m.Update env order now done w).err =
        (m.loadDatabases env (m.DownloadDatabases env order w).1.fs).2 := by
    simp only [Manager.Update, hdue, hdl]
    cases hl : (m.loadDatabases env (m.DownloadDatabases env order w).1.fs).2 with
    | none => rw [hl] at h; cases h.1
    | some err => simp
  rw [hu.1, hu.2]
  exact h

/-- The refresh of `readyManager` in which the city IPv6 file arrives empty. -/
theorem Update_load_failure_state_witness :
    (readyManager.Update emptyIPv6Env loadOrder (19729 * nsPerDay) (19729 * nsPerDay + Minute)
      oldWorld).err.isSome = true ∧
    (readyManager.Update emptyIPv6Env loadOrder (19729 * nsPerDay) (19729 * nsPerDay + Minute)
      oldWorld).mgr.lastUpdate = readyManager.lastUpdate :=
  have h := Update_load_failure_state emptyIPv6Env loadOrder (19729 * nsPerDay)
    (19729 * nsPerDay + Minute) readyManager oldWorld (by decide) (by decide)
    ⟨Db.cityIPv6, by decide⟩
  ⟨h.1, h.2.1⟩

/-- C8, as stated, fails: the transfer breaks off after two of four bytes, `downloadFile`
returns an error, and the destination, which held `[1]`, holds the two bytes written. -/
theorem downloadFile_leaves_truncated_file :
    (downloadFile brokenCopyEnv cityIPv4URL "data/geoip/geolite2-city-ipv4.mmdb"
      oldWorld).2.isSome = true ∧
    oldWorld.fs "data/geoip/geolite2-city-ipv4.mmdb" = some [1] ∧
    (downloadFile brokenCopyEnv cityIPv4URL "data/geoip/geolite2-city-ipv4.mmdb"
      oldWorld).1.fs "data/geoip/geolite2-city-ipv4.mmdb" = some [9, 8] := by
  decide

/-- C8, amended: when `downloadFile` fails before the copy (request error, status other than
200, or the destination cannot be created) the file system is left as it was; when the copy of
the body fails after `n` bytes, `downloadFile` returns an error, the destination holds exactly
those `n` first bytes of the body in place of its previous contents, and every other path is
left as it was. -/
theorem downloadFile_failure_effect (env : Env) (url path : String) (w : World) :
    (env.httpGet url = HttpResult.netErr →
      (downloadFile env url path w).2.isSome = true ∧ (downloadFile env url path w).1.fs = w.fs) ∧
    (∀ status body copyErr, env.httpGet url = HttpResult.resp status body copyErr →
      (status ≠ 200 ∨ env.createFails path = true) →
      (downloadFile env url path w).2.isSome = true ∧ (downloadFile env url path w).1.fs = w.fs) ∧
    (∀ body n, env.httpGet url = HttpResult.resp 200 body (some n) →
      env.createFails path = false →
      (downloadFile env url path w).2.isSome = true ∧
      (downloadFile env url path w).1.fs path = some (body.take n) ∧
      ∀ q, q ≠ path → (downloadFile env url path w).1.fs q = w.fs q) := by
  refine ⟨fun h => ?_, fun status body copyErr h hc => ?_, fun body n h hc => ?_⟩
  · simp [downloadFile, h]
  · simp only [downloadFile, h]
    by_cases hs : status = 200
    · rcases hc with hc | hc
      · exact absurd hs hc
      · simp [hs, hc]
    · simp [hs]
  · simp only [downloadFile, h, hc]
    refine ⟨by simp, by simp [FS.write], fun q hq => by simp [FS.write, hq]⟩

/-- C8 amended, on a request that fails and on the transfer that breaks off. -/
theorem downloadFile_failure_effect_witness :
    ((downloadFile asnDownEnv asnURL "data/geoip/asn.mmdb" oldWorld).2.isSome = true ∧
      (downloadFile asnDownEnv asnURL "data/geoip/asn.mmdb" oldWorld).1.fs = oldWorld.fs) ∧
    (downloadFile brokenCopyEnv asnURL "data/geoip/asn.mmdb" oldWorld).1.fs
      "data/geoip/asn.mmdb" = some ([9, 8, 7, 6].take 2) :=
  ⟨(downloadFile_failure_effect asnDownEnv asnURL "data/geoip/asn.mmdb" oldWorld).1 (by decide),
   ((downloadFile_failure_effect brokenCopyEnv asnURL "data/geoip/asn.mmdb" oldWorld).2.2
      [9, 8, 7, 6] 2 (by decide) (by decide)).2.1⟩

/-- C9, as stated, fails: one day after the last load `Update` returns nil without requesting
any dataset. -/
theorem Update_not_due_fetches_nothing :
    (readyManager.Update goodEnv loadOrder (19721 * nsPerDay) (19721 * nsPerDay + Minute)
      oldWorld).world.fetched = [] ∧
    (readyManager.Update goodEnv loadOrder (19721 * nsPerDay) (19721 * nsPerDay + Minute)
      oldWorld).err = none := by
  decide

/-- C9, amended: `Update` fetches only when more than `updateInterval` (one week) has elapsed
since `lastUpdate`; otherwise it returns nil and changes and requests nothing.  When it is due
it fetches the datasets in the iteration order of the map, whichever files are present: all of
them when every download succeeds, and exactly those up to and including the first one whose
download fails, in which case it returns an error. -/
theorem Update_fetches_when_due (env : Env) (order : List Db) (now done : Int) (m : Manager)
    (w : World) :
    (m.updateInterval = updateInterval →
      (m.ShouldUpdate now = true ↔ now - m.lastUpdate > 7 * nsPerDay)) ∧
    (m.ShouldUpdate now = false →
      (m.Update env order now done w).err = none ∧ (m.Update env order now done w).mgr = m ∧
      (m.Update env order now done w).world.fetched = w.fetched ∧
      (m.Update env order now done w).world.fs = w.fs) ∧
    (m.ShouldUpdate now = true →
      ((∀ d ∈ order, (downloadFile env (dbURL d) (m.dbFile d) w).2 = none) →
        (m.Update env order now done w).world.fetched = w.fetched ++ order.map dbURL) ∧
      (∀ pre d post, order = pre ++ d :: post →
        (∀ x ∈ pre, (downloadFile env (dbURL x) (m.dbFile x) w).2 = none) →
        (downloadFile env (dbURL d) (m.dbFile d) w).2.isSome = true →
        (m.Update env order now done w).world.fetched = w.fetched ++ (pre ++ [d]).map dbURL ∧
        (m.Update env order now done w).err.isSome = true)) := by
  refine ⟨fun hi => ?_, fun hdue => ?_, fun hdue => ?_⟩
  · simp only [Manager.ShouldUpdate, hi, updateInterval, timeSub, maxDuration, minDuration,
      nsPerDay_eq, Hour_eq, decide_eq_true_eq]
    split_ifs <;> omega
  · simp [Manager.Update, hdue]
  · have hw := Update_world env order now done m w
    simp only [hdue, if_true] at hw
    refine ⟨fun hok => ?_, fun pre d post ho hpre hd => ?_⟩
    · rw [hw]
      exact (downloadAll_ok env m order w w hok).2
    · subst ho
      obtain ⟨h1, h2, _⟩ := downloadAll_stops env m pre post d w w hpre hd
      exact ⟨by rw [hw]; exact h2, (Update_download_error env _ now done m w hdue h1).1⟩

/-- C9 amended, on `readyManager` one day and nine days after its last load, and nine days
after it with the ASN request failing second in the order. -/
theorem Update_fetches_when_due_witness :
    (readyManager.Update goodEnv loadOrder (19721 * nsPerDay) (19721 * nsPerDay + Minute)
      oldWorld).world.fetched = oldWorld.fetched ∧
    (readyManager.Update goodEnv loadOrder (19729 * nsPerDay) (19729 * nsPerDay + Minute)
      oldWorld).world.fetched = oldWorld.fetched ++ loadOrder.map dbURL ∧
    (readyManager.Update asnDownEnv [Db.cityIPv4, Db.asn, Db.country, Db.cityIPv6]
      (19729 * nsPerDay) (19729 * nsPerDay + Minute) oldWorld).world.fetched =
      oldWorld.fetched ++ ([Db.cityIPv4] ++ [Db.asn]).map dbURL :=
  ⟨((Update_fetches_when_due goodEnv loadOrder (19721 * nsPerDay) (19721 * nsPerDay + Minute)
      readyManager oldWorld).2.1 (by decide)).2.2.1,
   ((Update_fetches_when_due goodEnv loadOrder (19729 * nsPerDay) (19729 * nsPerDay + Minute)
      readyManager oldWorld).2.2 (by decide)).1 (by decide),
   (((Update_fetches_when_due asnDownEnv [Db.cityIPv4, Db.asn, Db.country, Db.cityIPv6]
      (19729 * nsPerDay) (19729 * nsPerDay + Minute) readyManager oldWorld).2.2 (by decide)).2
      [Db.cityIPv4] Db.asn [Db.country, Db.cityIPv6] rfl (by decide) (by decide)).1⟩

/-- C10: `Reader()` allocates a facade holding exactly the manager's four current readers and
leaves the manager, the world and the facades allocated before as they were; an `Update`
executed afterwards, whatever it does to the manager's readers, leaves that facade holding
the same four readers. -/
theorem Reader_binds_current_readers (p : Process) :
    (p.Reader).1.mgr = p.mgr ∧ (p.Reader).1.world = p.world ∧
    (∀ a, a < p.facades.length → (p.Reader).1.facades[a]? = p.facades[a]?) ∧
    (p.Reader).1.facades[(p.Reader).2]? =
      some ⟨p.mgr.cityIPv4DB, p.mgr.cityIPv6DB, p.mgr.countryDB, p.mgr.asnDB⟩ ∧
    ∀ (env : Env) (order : List Db) (now done : Int),
      ((p.Reader).1.Update env order now done).1.facades[(p.Reader).2]? =
        some ⟨p.mgr.cityIPv4DB, p.mgr.cityIPv6DB, p.mgr.countryDB, p.mgr.asnDB⟩ := by
  refine ⟨rfl, rfl, fun a ha => ?_, ?_, fun env order now done => ?_⟩
  · simp [Process.Reader, List.getElem?_append_left ha]
  · simp [Process.Reader, Manager.Reader]
  · simp [Process.Update, Process.Reader, Manager.Reader]

/-- A facade taken from `readyManager` keeps readers 1 to 4 through a refresh that gives the
manager four new readers. -/
theorem Reader_binds_current_readers_witness :
    ((readyProcess.Reader).1.Update goodEnv loadOrder (19729 * nsPerDay)
      (19729 * nsPerDay + Minute)).1.facades[(readyProcess.Reader).2]? =
      some ⟨some ⟨1⟩, some ⟨2⟩, some ⟨3⟩, some ⟨4⟩⟩ ∧
    ((readyProcess.Reader).1.Update goodEnv loadOrder (19729 * nsPerDay)
      (19729 * nsPerDay + Minute)).1.mgr.Reader =
      ⟨some ⟨11⟩, some ⟨11⟩, some ⟨11⟩, some ⟨11⟩⟩ :=
  ⟨(Reader_binds_current_readers readyProcess).2.2.2.2 goodEnv loadOrder (19729 * nsPerDay)
      (19729 * nsPerDay + Minute), by decide⟩

/-! ### Registration -/

/-- C13, as stated, fails: a rule that is no cron rule at all is registered, with `nextRun`
seven days after the registration of Friday 2024-01-05 10:00. -/
theorem AddTask_registers_unrecognised_rule :
    (AddTask UTC New "cleanup" "every 5 minutes" (19727 * nsPerDay + 10 * Hour)).tasks =
      [⟨"cleanup", "every 5 minutes", 19734 * nsPerDay + 10 * Hour, false⟩] := by
  decide

/-- C13, amended: `AddTask` always succeeds: it appends the task with `running = false` and the
`nextRun` that `calculateNextRun` computes at the instant of the call; no rule is rejected.  For
every rule string other than `0 3 * * 0` that is seven days after the call.  For `0 3 * * 0`, in
a location whose UTC offset does not change from two days before the call to nine days after it,
it is the first Sunday 03:00:00 strictly after the call. -/
theorem AddTask_always_registers (loc : TimeLocation) (s : Scheduler) (name schedule : String)
    (now : Int) :
    (AddTask loc s name schedule now).tasks =
      s.tasks ++ [⟨name, schedule, calculateNextRun loc schedule now, false⟩] ∧
    (AddTask loc s name schedule now).active = s.active ∧
    (AddTask loc s name schedule now).spawned = s.spawned ∧
    (schedule ≠ weeklyRule →
      calculateNextRun loc schedule now = now + 7 * nsPerDay ∧
      now < calculateNextRun loc schedule now) ∧
    (∀ off, schedule = weeklyRule → stableAround loc off now →
      now < calculateNextRun loc schedule now ∧
      isSunday3 loc (calculateNextRun loc schedule now) ∧
      ∀ t : Int, now < t → isSunday3 loc t → calculateNextRun loc schedule now ≤ t) := by
  refine ⟨rfl, rfl, rfl, fun h => calculateNextRun_default loc schedule now h,
    fun off h hst => ?_⟩
  subst h
  have hsp := calculateNextRun_weekly_spec loc off now hst
  exact ⟨hsp.1, hsp.2.1, hsp.2.2.1⟩

/-- C13 amended, on the rule of `main` in Europe/Helsinki on Friday 2024-01-05 10:00 and on a
rule that is not recognised. -/
theorem AddTask_always_registers_witness :
    isSunday3 Helsinki (calculateNextRun Helsinki weeklyRule (19727 * nsPerDay + 8 * Hour)) ∧
    calculateNextRun UTC "every 5 minutes" (19727 * nsPerDay + 10 * Hour) =
      19727 * nsPerDay + 10 * Hour + 7 * nsPerDay :=
  ⟨((AddTask_always_registers Helsinki New "geoip-update" weeklyRule
      (19727 * nsPerDay + 8 * Hour)).2.2.2.2 7200 rfl
      (stableAround_Helsinki_winter _ (by decide) (by decide))).2.1,
   ((AddTask_always_registers UTC New "cleanup" "every 5 minutes"
      (19727 * nsPerDay + 10 * Hour)).2.2.2.1 (by decide)).1⟩

/-! ### Lookup facade -/


/-- C11: whatever the address, a query whose reader is nil returns the zero value and no error,
without calling the library: `Country` when `countryDB` is nil, `City` when the city reader
selected for the address is nil, `ASN` when `asnDB` is nil. -/
theorem lookup_without_reader (lib : Geoip2) (g : geoipReader) (ip : IP) :
    (g.countryDB = none →
      (g.Country lib ip).value = {} ∧ (g.Country lib ip).err = none ∧
      (g.Country lib ip).consulted = []) ∧
    (g.cityDB ip = none →
      (g.City lib ip).value = {} ∧ (g.City lib ip).err = none ∧
      (g.City lib ip).consulted = []) ∧
    (g.asnDB = none →
      (g.ASN lib ip).value = {} ∧ (g.ASN lib ip).err = none ∧ (g.ASN lib ip).consulted = []) := by
  refine ⟨fun h => ?_, fun h => ?_, fun h => ?_⟩
  · simp [geoipReader.Country, h]
  · simp [geoipReader.City, h]
  · simp [geoipReader.ASN, h]

/-- The three queries on the facade without readers. -/
theorem lookup_without_reader_witness :
    ((degradedFacade.Country sampleLib addr4).value = {} ∧
      (degradedFacade.Country sampleLib addr4).err = none ∧
      (degradedFacade.Country sampleLib addr4).consulted = []) ∧
    ((degradedFacade.City sampleLib addr4).value = {} ∧
      (degradedFacade.City sampleLib addr4).err = none ∧
      (degradedFacade.City sampleLib addr4).consulted = []) ∧
    ((degradedFacade.ASN sampleLib addr4).value = {} ∧
      (degradedFacade.ASN sampleLib addr4).err = none ∧
      (degradedFacade.ASN sampleLib addr4).consulted = []) :=
  ⟨(lookup_without_reader sampleLib degradedFacade addr4).1 (by decide),
   (lookup_without_reader sampleLib degradedFacade addr4).2.1 (by decide),
   (lookup_without_reader sampleLib degradedFacade addr4).2.2 (by decide)⟩

/-- C12, as stated, fails: an IPv6 address has no record in a loaded IPv4-only dataset and the
error the library returns for it reaches the caller of `Country` and `ASN`; and where the
library reports the absence by a zero record, the result of `Country` is not the zero value. -/
theorem lookup_without_record_error_and_isEU :
    (readyFacade.Country ipv4OnlyLib addr6).err =
      some "IPv6 address in an IPv4-only database" ∧
    (readyFacade.ASN ipv4OnlyLib addr6).err = some "IPv6 address in an IPv4-only database" ∧
    (readyFacade.Country noRecordLib addr4).err = none ∧
    (readyFacade.Country noRecordLib addr4).value ≠ {} := by
  decide

/-- C12, amended: for every address and loaded reader, when the library reports the absence of
a record by the zero record and no error, each query returns no error, `City` and `ASN` the zero
value and `Country` an empty `Name` and `ISO` with `IsEU` pointing to false; when the library
returns an error for the address, each query returns the zero value and that error. -/
theorem lookup_without_record (lib : Geoip2) (g : geoipReader) (ip : IP) (db : Reader) :
    (g.countryDB = some db → lib.Country db ip = .ok {} →
      (g.Country lib ip).value = { Name := "", ISO := "", IsEU := some false } ∧
      (g.Country lib ip).err = none) ∧
    (g.cityDB ip = some db → lib.City db ip = .ok {} →
      (g.City lib ip).value = {} ∧ (g.City lib ip).err = none) ∧
    (g.asnDB = some db → lib.ASN db ip = .ok {} →
      (g.ASN lib ip).value = {} ∧ (g.ASN lib ip).err = none) ∧
    (∀ e, g.countryDB = some db → lib.Country db ip = .error e →
      (g.Country lib ip).value = {} ∧ (g.Country lib ip).err = some e) ∧
    (∀ e, g.cityDB ip = some db → lib.City db ip = .error e →
      (g.City lib ip).value = {} ∧ (g.City lib ip).err = some e) ∧
    (∀ e, g.asnDB = some db → lib.ASN db ip = .error e →
      (g.ASN lib ip).value = {} ∧ (g.ASN lib ip).err = some e) := by
  refine ⟨fun h hr => ?_, fun h hr => ?_, fun h hr => ?_, fun e h hr => ?_, fun e h hr => ?_,
    fun e h hr => ?_⟩
  · simp [geoipReader.Country, h, hr]
  · simp [geoipReader.City, h, hr]
  · simp [geoipReader.ASN, h, hr]
  · simp [geoipReader.Country, h, hr]
  · simp [geoipReader.City, h, hr]
  · simp [geoipReader.ASN, h, hr]

/-- The three queries on `readyFacade` over datasets without a record, and the country query
of an IPv6 address over an IPv4-only dataset. -/
theorem lookup_without_record_witness :
    ((readyFacade.Country noRecordLib addr6).value = { Name := "", ISO := "", IsEU := some false } ∧
      (readyFacade.Country noRecordLib addr6).err = none) ∧
    ((readyFacade.City noRecordLib addr6).value = {} ∧
      (readyFacade.City noRecordLib addr6).err = none) ∧
    ((readyFacade.ASN noRecordLib addr6).value = {} ∧
      (readyFacade.ASN noRecordLib addr6).err = none) ∧
    ((readyFacade.Country ipv4OnlyLib addr6).value = {} ∧
      (readyFacade.Country ipv4OnlyLib addr6).err =
        some "IPv6 address in an IPv4-only database") :=
  ⟨(lookup_without_record noRecordLib readyFacade addr6 ⟨3⟩).1 (by decide) rfl,
   (lookup_without_record noRecordLib readyFacade addr6 ⟨2⟩).2.1 (by decide) rfl,
   (lookup_without_record noRecordLib readyFacade addr6 ⟨4⟩).2.2.1 (by decide) rfl,
   (lookup_without_record ipv4OnlyLib readyFacade addr6 ⟨3⟩).2.2.2.1 _ (by decide) rfl⟩

/-- C14: for every city record the selected reader returns, `MetroCode` in the result of `City`
is the metro code of the record when that code is positive and the country ISO code of the
record is `US`, and 0 otherwise, so 0 for every other country. -/
theorem City_metro_code_us_only (lib : Geoip2) (g : geoipReader) (ip : IP) (db : Reader)
    (record : CityRecord) (hdb : g.cityDB ip = some db) (hrec : lib.City db ip = .ok record) :
    (g.City lib ip).err = none ∧
    (g.City lib ip).value.MetroCode =
      (if record.Location.MetroCode > 0 ∧ record.Country.IsoCode = "US" then
        record.Location.MetroCode else 0) ∧
    (record.Country.IsoCode = "US" →
      (g.City lib ip).value.MetroCode = record.Location.MetroCode) ∧
    (record.Country.IsoCode ≠ "US" → (g.City lib ip).value.MetroCode = 0) := by
  have hm : (g.City lib ip).value.MetroCode =
      (if record.Location.MetroCode > 0 ∧ record.Country.IsoCode = "US" then
        record.Location.MetroCode else 0) := by
    simp only [geoipReader.City, hdb, hrec]
    cases record.CityNames.lookup "en" <;> rcases record.Subdivisions with _ | ⟨sub, _⟩ <;>
      (try simp only) <;> (try cases sub.Names.lookup "en") <;> (try simp only) <;>
      split_ifs <;> rfl
  refine ⟨by simp [geoipReader.City, hdb, hrec], hm, fun h => ?_, fun h => ?_⟩
  · rw [hm]
    by_cases hp : record.Location.MetroCode > 0
    · simp [hp, h]
    · simp only [hp, false_and, if_false]
      omega
  · rw [hm]
    simp [h]

/-- The record `newYork` from the IPv4 reader, and the record `notUS` from the IPv6 reader. -/
theorem City_metro_code_us_only_witness :
    (readyFacade.City sampleLib addr4).value.MetroCode = newYork.Location.MetroCode ∧
    (readyFacade.City sampleLib addr6).value.MetroCode = 0 :=
  ⟨(City_metro_code_us_only sampleLib readyFacade addr4 ⟨1⟩ newYork (by decide)
      rfl).2.2.1 (by decide),
   (City_metro_code_us_only sampleLib readyFacade addr6 ⟨2⟩ notUS (by decide)
      rfl).2.2.2 (by decide)⟩

theorem Country_ok_value (lib : Geoip2) (g : geoipReader) (ip : IP) (db : Reader)
    (record : CountryRecord) (hdb : g.countryDB = some db)
    (hrec : lib.Country db ip = .ok record) :
    (g.Country lib ip).value.Name =
      (match record.Country.Names.lookup "en" with
        | some c => if c = "" then (record.RegisteredCountry.Names.lookup "en").getD "" else c
        | none => (record.RegisteredCountry.Names.lookup "en").getD "") ∧
    (g.Country lib ip).value.ISO =
      (if record.Country.IsoCode = "" then record.RegisteredCountry.IsoCode
        else record.Country.IsoCode) := by
  simp only [geoipReader.Country, hdb, hrec]
  constructor
  · cases record.Country.Names.lookup "en" with
    | none =>
      cases record.RegisteredCountry.Names.lookup "en" <;> simp only <;> split_ifs <;> simp_all
    | some c =>
      cases record.RegisteredCountry.Names.lookup "en" <;> simp only <;> split_ifs <;> simp_all
  · cases record.Country.Names.lookup "en" <;>
      cases record.RegisteredCountry.Names.lookup "en" <;> simp only <;> split_ifs <;> simp_all

/-- C15: for every country record, `Name` in the result of `Country` is the English name of the
country when present and not empty, otherwise the English name of the registered country when
present, otherwise empty; `ISO` is the ISO code of the country when not empty and otherwise the
ISO code of the registered country. -/
theorem Country_name_iso_fallback (lib : Geoip2) (g : geoipReader) (ip : IP) (db : Reader)
    (record : CountryRecord) (hdb : g.countryDB = some db)
    (hrec : lib.Country db ip = .ok record) :
    (∀ c, record.Country.Names.lookup "en" = some c → c ≠ "" →
      (g.Country lib ip).value.Name = c) ∧
    (record.Country.Names.lookup "en" = none ∨ record.Country.Names.lookup "en" = some "" →
      ∀ c, record.RegisteredCountry.Names.lookup "en" = some c →
        (g.Country lib ip).value.Name = c) ∧
    (record.Country.Names.lookup "en" = none ∨ record.Country.Names.lookup "en" = some "" →
      record.RegisteredCountry.Names.lookup "en" = none → (g.Country lib ip).value.Name = "") ∧
    (record.Country.IsoCode ≠ "" → (g.Country lib ip).value.ISO = record.Country.IsoCode) ∧
    (record.Country.IsoCode = "" →
      (g.Country lib ip).value.ISO = record.RegisteredCountry.IsoCode) := by
  have hv := Country_ok_value lib g ip db record hdb hrec
  refine ⟨fun c hc hne => ?_, fun h c hc => ?_, fun h hc => ?_, fun h => ?_, fun h => ?_⟩
  · rw [hv.1, hc]
    simp [hne]
  · rw [hv.1]
    rcases h with h | h <;> simp [h, hc]
  · rw [hv.1]
    rcases h with h | h <;> simp [h, hc]
  · rw [hv.2]
    simp [h]
  · rw [hv.2]
    simp [h]

/-- The record `registeredOnly`: name and code come from the registered country. -/
theorem Country_name_iso_fallback_witness :
    (readyFacade.Country sampleLib addr4).value.Name = "France" ∧
    (readyFacade.Country sampleLib addr4).value.ISO = "FR" :=
  ⟨(Country_name_iso_fallback sampleLib readyFacade addr4 ⟨3⟩ registeredOnly (by decide)
      rfl).2.1 (Or.inl (by decide)) "France" (by decide),
   (Country_name_iso_fallback sampleLib readyFacade addr4 ⟨3⟩ registeredOnly (by decide)
      rfl).2.2.2.2 (by decide)⟩

end EchoIP
